import Mathlib

/-
Verification of vrrp-simple (a VRRP v2 implementation in Go).

This file shallowly embeds the packet codec (pkg/vrrp/packet.go), the
election state machine, the virtual-router construction (pkg/vrrp/router.go)
and the IP manager (ip_manager.go) as executable Lean definitions, and
proves the specified properties about them.

Modelling conventions:
- Go byte slices are `List Nat`, each element intended `< 256`.
- Go unsigned machine integers are `Nat` with an explicit `% 2 ^ w`
  wherever the Go code could overflow (the `uint32` checksum accumulator).
- Fallible Go functions returning `(T, error)` become `Option`.
- Channels, sockets, timers and goroutines are replaced by explicit fields
  of the machine record that log the corresponding effects (whether a timer
  is armed, whether the VIPs are held, how many advertisements were sent,
  which events were emitted, which observer invocations happened).
-/

set_option autoImplicit false

namespace Vrrp

/-! ## Packet codec (pkg/vrrp/packet.go) -/

/-- A decoded VRRP advertisement, mirroring Go `type Packet struct`.
All numeric fields are `uint8` in Go except the `uint16` checksum; here they
are `Nat` with byte bounds carried as hypotheses where theorems need them.
`IPAddresses []net.IP` becomes a list of byte lists, `AuthData []byte` a
byte list (empty list for the absent/nil slice). -/
structure Packet where
  version : Nat
  type : Nat
  vrid : Nat
  priority : Nat
  countIPAddrs : Nat
  authType : Nat
  advInterval : Nat
  checksum : Nat
  ipAddresses : List (List Nat)
  authData : List Nat
  deriving Repr, DecidableEq

/-- The 12-byte head that marks an IPv4-mapped IPv6 address
(Go `net`'s `v4InV6Prefix`: ten zero bytes then `0xff, 0xff`). -/
def v4MappedHead : List Nat := [0, 0, 0, 0, 0, 0, 0, 0, 0, 0, 255, 255]

/-- Go `net.IP.To4`: a 4-byte address is returned as is, a 16-byte
IPv4-mapped address is reduced to its last 4 bytes, anything else is `nil`. -/
def ipTo4 (ip : List Nat) : Option (List Nat) :=
  if ip.length = 4 then some ip
  else if ip.length = 16 ∧ ip.take 12 = v4MappedHead then some (ip.drop 12)
  else none

/-- Go `net.IP.To16`: a 4-byte address is prefixed into the mapped form, a
16-byte address is returned as is; for other lengths `To16` returns `nil`
and `copy` into the zeroed buffer leaves 16 zero bytes. -/
def ipTo16 (ip : List Nat) : List Nat :=
  if ip.length = 4 then v4MappedHead ++ ip
  else if ip.length = 16 then ip
  else List.replicate 16 0

/-- The bytes `Marshal` writes for one address: the 4-byte form when
`To4` succeeds, otherwise the 16-byte form. -/
def encodeIPBytes (ip : List Nat) : List Nat :=
  match ipTo4 ip with
  | some v4 => v4
  | none => ipTo16 ip

/-- The concatenated address block of the packet body. -/
def addrBytes (ips : List (List Nat)) : List Nat :=
  (ips.map encodeIPBytes).flatten

/-- One pass of the Go checksum accumulation loop
(`sum += uint32(temp[i])<<8 + uint32(temp[i+1])` over pairs, then the odd
trailing byte as the high byte of a zero-padded word), with the `uint32`
wrap-around made explicit. -/
def wordSumAux : List Nat → Nat → Nat
  | [], s => s
  | [b], s => (s + (b <<< 8)) % 4294967296
  | b0 :: b1 :: rest, s => wordSumAux rest ((s + ((b0 <<< 8) + b1)) % 4294967296)

/-- The same 16-bit big-endian word sum as an unbounded natural number;
used to state and prove properties of the accumulator. -/
def wordSumNat : List Nat → Nat
  | [] => 0
  | [b] => b <<< 8
  | b0 :: b1 :: rest => ((b0 <<< 8) + b1) + wordSumNat rest

/-- The Go carry-fold loop `for (sum >> 16) > 0 { sum = (sum & 0xFFFF) +
(sum >> 16) }`, written with a fuel argument so the definition is
structurally recursive; each effective iteration strictly decreases the
accumulator, so fuel equal to the initial value always suffices. -/
def foldCarryAux : Nat → Nat → Nat
  | 0, s => s
  | fuel + 1, s => if 65536 ≤ s then foldCarryAux fuel (s % 65536 + s / 65536) else s

/-- The carry fold of the checksum loop. -/
def foldCarry (s : Nat) : Nat := foldCarryAux s s

/-- Go `(p *Packet) calculateChecksum(data []byte) uint16`: zero bytes 6-7,
sum 16-bit big-endian words into a `uint32`, fold the carries, and return
the `uint16` truncation of the bitwise complement. -/
def calculateChecksum (data : List Nat) : Nat :=
  let temp := (data.set 6 0).set 7 0
  let sum := wordSumAux temp 0
  let folded := foldCarryAux sum sum
  (4294967295 - folded) % 65536

/-- The zero-checksum wire image built by `Marshal` before the checksum is
written: the 8-byte header (version/type, vrid, priority, count, then the
v2 auth-type/adv-interval bytes or the v3 split interval, then two zero
checksum bytes), the address block, and for v2 the 8-byte auth region
(the provided `AuthData` when its length is 8, otherwise the zeroes of the
freshly allocated buffer). -/
def Packet.marshalZero (p : Packet) : List Nat :=
  (((p.version <<< 4) % 256) ||| (p.type &&& 15)) ::
  p.vrid :: p.priority :: p.countIPAddrs ::
  (if p.version = 2 then p.authType else (p.advInterval >>> 4) &&& 240) ::
  (if p.version = 2 then p.advInterval else p.advInterval &&& 255) ::
  0 :: 0 ::
  (addrBytes p.ipAddresses ++
    (if p.version = 2 then
      (if p.authData.length = 8 then p.authData else List.replicate 8 0)
     else []))

/-- Go `(p *Packet) Marshal() ([]byte, error)`: reject versions other than
2 and 3, build the zero-checksum buffer, compute the checksum over it and
write it big-endian into bytes 6-7. -/
def Packet.Marshal (p : Packet) : Option (List Nat) :=
  if p.version = 2 ∨ p.version = 3 then
    let buf := p.marshalZero
    let c := calculateChecksum buf
    some ((buf.set 6 (c / 256)).set 7 (c % 256))
  else none

/-- Byte access `data[i]` under a previously checked bound. -/
def byteAt (data : List Nat) (i : Nat) : Nat := data.getD i 0

/-- The address-reading loop of `Unmarshal`: for each of `count` entries
take 4 bytes (v2, or v3 with at least 4 bytes left) or 16 bytes, failing
when the buffer runs out; returns the addresses and the final offset. -/
def readAddrs (version : Nat) (data : List Nat) (offset : Nat) :
    Nat → Option (List (List Nat) × Nat)
  | 0 => some ([], offset)
  | count + 1 =>
    if version = 2 ∨ (version = 3 ∧ 4 ≤ data.length - offset) then
      if offset + 4 ≤ data.length then
        match readAddrs version data (offset + 4) count with
        | some (ips, fin) => some (((data.drop offset).take 4) :: ips, fin)
        | none => none
      else none
    else
      if offset + 16 ≤ data.length then
        match readAddrs version data (offset + 16) count with
        | some (ips, fin) => some (((data.drop offset).take 16) :: ips, fin)
        | none => none
      else none

/-- Go `(p *Packet) Unmarshal(data []byte) error` decoding into a fresh
packet: reject inputs shorter than 8 bytes, split byte 0 into version and
type nibbles, read the fixed header fields, read `count` addresses from
offset 8, and for v2 capture 8 trailing bytes as auth data when present. -/
def Packet.Unmarshal (data : List Nat) : Option Packet :=
  if data.length < 8 then none
  else
    let version := (byteAt data 0 >>> 4) &&& 15
    let ptype := byteAt data 0 &&& 15
    let vrid := byteAt data 1
    let priority := byteAt data 2
    let count := byteAt data 3
    let authType := if version = 2 then byteAt data 4 else 0
    let advInterval :=
      if version = 2 then byteAt data 5
      else ((((byteAt data 4 &&& 15) <<< 8) % 256) ||| byteAt data 5)
    let checksum := (byteAt data 6 <<< 8) ||| byteAt data 7
    match readAddrs version data 8 count with
    | none => none
    | some (ips, offset) =>
      let auth :=
        if version = 2 ∧ offset + 8 ≤ data.length
        then (data.drop offset).take 8 else []
      some { version := version, type := ptype, vrid := vrid,
             priority := priority, countIPAddrs := count,
             authType := authType, advInterval := advInterval,
             checksum := checksum, ipAddresses := ips, authData := auth }

/-- Validity of a VRRPv2 packet per the data model: version 2, a 4-bit
type, byte-sized header fields, `count_ip_addrs` equal to the number of
addresses, every address a 4-byte IPv4 with byte entries, and byte-sized
auth data. -/
def Packet.ValidV2 (p : Packet) : Prop :=
  p.version = 2 ∧ p.type < 16 ∧ p.vrid < 256 ∧ p.priority < 256 ∧
  p.countIPAddrs < 256 ∧ p.authType < 256 ∧ p.advInterval < 256 ∧
  p.countIPAddrs = p.ipAddresses.length ∧
  (∀ ip ∈ p.ipAddresses, ip.length = 4 ∧ ∀ b ∈ ip, b < 256) ∧
  (∀ b ∈ p.authData, b < 256)

instance (p : Packet) : Decidable p.ValidV2 := by
  unfold Packet.ValidV2; infer_instance

/-- The mathematical 16-bit one's-complement sum of a buffer: big-endian
word sum with end-around carry folding, as the spec's checksum property
reads it. -/
def onesComplementSum16 (data : List Nat) : Nat :=
  foldCarry (wordSumNat data)

/-! ## State machine (state_machine.go) -/

/-- The three protocol states (`Init`, `Backup`, `Master`). -/
inductive State where
  | Init
  | Backup
  | Master
  deriving Repr, DecidableEq

/-- The state-machine events (`EventStartup` and friends). -/
inductive Event where
  | Startup
  | Shutdown
  | MasterDown
  | AdvertReceived
  | PriorityZeroReceived
  deriving Repr, DecidableEq

/-- The election state machine. Concurrency plumbing (mutex, channels,
`time.Timer`/`time.Ticker` objects) is replaced by effect fields:
`masterDownTimerOn`/`advertTimerOn` record whether the corresponding timer
is armed (`!= nil`), `vipsHeld` records the net effect of
`acquireVirtualIPs`/`releaseVirtualIPs`, `sentAdverts` counts
`sendAdvertisement` calls, `emittedEvents` logs events pushed onto
`eventCh`, and `observerEvents` logs `onStateChange` invocations.
The `sourceIP` field holds the local IPv4 identity captured at startup; the
struct in the checked-in state-machine file lacks it, but the unit tests
assign it and the spec describes it, so it is included here. -/
structure StateMachine where
  state : State
  vrid : Nat
  priority : Nat
  advertisementInterval : Nat
  masterDownInterval : Nat
  virtualIPs : List (List Nat)
  sourceIP : Option (List Nat)
  masterDownTimerOn : Bool
  advertTimerOn : Bool
  vipsHeld : Bool
  sentAdverts : Nat
  emittedEvents : List Event
  observerEvents : List (State × State)
  deriving Repr, DecidableEq

/-- Go `(sm *StateMachine) calculateMasterDownInterval() time.Duration`:
`skewTime := time.Duration((256-int(sm.priority)) *
int(sm.advertisementInterval.Milliseconds()/256)) * time.Millisecond` and
`3*sm.advertisementInterval + skewTime`, with durations in nanoseconds.
Note the source divides the interval in milliseconds by 256 before
multiplying by `256 - priority`. -/
def calculateMasterDownInterval (priority advNs : Nat) : Nat :=
  let skewTime := (256 - priority) * (advNs / 1000000 / 256) * 1000000
  3 * advNs + skewTime

/-- Go `NewStateMachine(vrid, priority uint8, ips []net.IP, iface
*net.Interface) *StateMachine`: initial state `Init`, and an advertisement
interval hard-coded to `time.Second` (1e9 ns) — the constructor takes no
interval argument. -/
def NewStateMachine (vrid priority : Nat) (ips : List (List Nat)) : StateMachine :=
  { state := State.Init
    vrid := vrid
    priority := priority
    advertisementInterval := 1000000000
    masterDownInterval := calculateMasterDownInterval priority 1000000000
    virtualIPs := ips
    sourceIP := none
    masterDownTimerOn := false
    advertTimerOn := false
    vipsHeld := false
    sentAdverts := 0
    emittedEvents := []
    observerEvents := [] }

/-- Go `sendAdvertisement`: builds an advertisement for the machine's VRID,
priority and VIPs and pushes it on the send channel; modelled as counting
the emission. -/
def sendAdvertisement (sm : StateMachine) : StateMachine :=
  { sm with sentAdverts := sm.sentAdverts + 1 }

/-- Go `(sm *StateMachine) transition(newState State)`: early return when
the state is unchanged; otherwise stop the outgoing state's timer (and for
Master release the VIPs), install the new state, run its entry actions
(Master: acquire VIPs, send an advertisement, start the advert ticker;
Backup: start the master-down timer; Init: stop both timers and release
the VIPs), and invoke the state-change observer with the (old, new) pair. -/
def transition (sm : StateMachine) (newState : State) : StateMachine :=
  let oldState := sm.state
  if oldState = newState then sm
  else
    let sm1 :=
      match oldState with
      | State.Master => { sm with advertTimerOn := false, vipsHeld := false }
      | State.Backup => { sm with masterDownTimerOn := false }
      | State.Init => sm
    let sm2 := { sm1 with state := newState }
    let sm3 :=
      match newState with
      | State.Master =>
          sendAdvertisement { sm2 with vipsHeld := true, advertTimerOn := true }
      | State.Backup => { sm2 with masterDownTimerOn := true }
      | State.Init =>
          { sm2 with advertTimerOn := false, masterDownTimerOn := false,
                     vipsHeld := false }
    { sm3 with observerEvents := sm3.observerEvents ++ [(oldState, newState)] }

/-- Go `(sm *StateMachine) handleEvent(event Event)`. -/
def handleEvent (sm : StateMachine) (event : Event) : StateMachine :=
  match event with
  | Event.Startup =>
      if sm.priority = 255 then transition sm State.Master
      else transition sm State.Backup
  | Event.Shutdown => transition sm State.Init
  | Event.MasterDown =>
      if sm.state = State.Backup then transition sm State.Master else sm
  | Event.PriorityZeroReceived =>
      if sm.state = State.Master then sendAdvertisement sm else sm
  | Event.AdvertReceived => sm

/-- Go `bytes.Compare`: lexicographic byte-wise comparison returning
-1, 0 or 1. -/
def bytesCompare : List Nat → List Nat → Int
  | [], [] => 0
  | [], _ :: _ => -1
  | _ :: _, [] => 1
  | a :: as, b :: bs =>
      if a < b then -1 else if b < a then 1 else bytesCompare as bs

/-- Modelled from the spec: the operational `compareSourceIP` is not in the
checked-in sources — the state-machine file carries a stub returning 0
while the unit tests exercise a working version. Per the spec, the
comparison is a byte-wise lexicographic compare of the advertisement's
IPv4 source against the local source IP, and when the local source IP is
unknown the local instance always loses the tie-break. The result is
positive exactly when the packet's source wins. -/
def compareSourceIP (sm : StateMachine) (src : List Nat) : Int :=
  match sm.sourceIP with
  | none => 1
  | some own => bytesCompare src own

/-- Go `(sm *StateMachine) handlePacket(pkt *Packet)`: discard foreign
VRIDs, route priority-0 packets to the `PriorityZeroReceived` event, reset
the master-down timer in Backup on a priority at least our own, and in
Master yield to a higher priority or to an equal priority whose source IP
wins the tie-break. The sender's IPv4 source address `src` accompanies the
packet (modelled from the spec: the operational receive path that extracts
it from the IP header is not in the checked-in sources). -/
def handlePacket (sm : StateMachine) (pkt : Packet) (src : List Nat) : StateMachine :=
  if pkt.vrid ≠ sm.vrid then sm
  else if pkt.priority = 0 then
    { sm with emittedEvents := sm.emittedEvents ++ [Event.PriorityZeroReceived] }
  else
    match sm.state with
    | State.Backup =>
        if sm.priority ≤ pkt.priority then { sm with masterDownTimerOn := true }
        else sm
    | State.Master =>
        if sm.priority < pkt.priority ∨
           (pkt.priority = sm.priority ∧ 0 < compareSourceIP sm src) then
          transition sm State.Backup
        else sm
    | State.Init => sm

/-! ## Virtual router (pkg/vrrp/router.go) -/

/-- Go `type Config struct` from router.go; `VirtualIPs []string` is
modelled as the parsed byte-list addresses. -/
structure Config where
  vrid : Nat
  priority : Nat
  interfaceName : String
  virtualIPs : List (List Nat)
  advInterval : Nat
  preempt : Bool
  version : Nat
  deriving Repr, DecidableEq

/-- The fields of Go `type VirtualRouter struct` that survive construction. -/
structure VirtualRouter where
  vrid : Nat
  priority : Nat
  ips : List (List Nat)
  iface : String
  deriving Repr, DecidableEq

/-- Go `NewVirtualRouter(cfg *Config) (*VirtualRouter, error)`: reject VRID
outside 1-255, priority above 255, an empty interface name, an empty VIP
list, and VIPs that are not IPv4 (`ip.To4() == nil`); store the `To4`
forms. -/
def NewVirtualRouter (cfg : Config) : Option VirtualRouter :=
  if cfg.vrid = 0 ∨ 255 < cfg.vrid then none
  else if 255 < cfg.priority then none
  else if cfg.interfaceName = "" then none
  else if cfg.virtualIPs.length = 0 then none
  else if cfg.virtualIPs.all (fun ip => (ipTo4 ip).isSome) then
    some { vrid := cfg.vrid
           priority := cfg.priority
           ips := cfg.virtualIPs.map (fun ip => (ipTo4 ip).getD ip)
           iface := cfg.interfaceName }
  else none

/-- The state machine built by Go `(vr *VirtualRouter) Start()` at
router.go line 89: `NewStateMachine(vr.vrid, vr.priority, vr.ips,
vr.network.GetInterface())` — the configured `AdvInterval` is not passed. -/
def VirtualRouter.startMachine (vr : VirtualRouter) : StateMachine :=
  NewStateMachine vr.vrid vr.priority vr.ips

/-! ## IP manager (ip_manager.go) -/

/-- Go `net.IP.Equal`: equal lengths compare byte-wise; a 4-byte and a
16-byte address are equal when the longer one is the IPv4-mapped form of
the shorter. -/
def ipEqual (a b : List Nat) : Bool :=
  if a.length = b.length then a == b
  else if a.length = 4 ∧ b.length = 16 then
    b.take 12 == v4MappedHead && a == b.drop 12
  else if a.length = 16 ∧ b.length = 4 then
    a.take 12 == v4MappedHead && b == a.drop 12
  else false

/-- Go `(m *IPManager) AddIP(ip net.IP) error`: list the interface's
addresses, succeed unchanged when one equals `ip`, otherwise add it. The
kernel's address set (what `netlink.AddrList` reports and
`netlink.AddrAdd` extends) is the explicit `addrs` state; netlink I/O
errors are out of scope. -/
def AddIP (addrs : List (List Nat)) (ip : List Nat) : List (List Nat) :=
  if addrs.any (fun a => ipEqual a ip) then addrs else addrs ++ [ip]

/-- Go `(m *IPManager) DelIP(ip net.IP) error`: list the addresses, delete
the first one equal to `ip`, and succeed unchanged when none matches. -/
def DelIP : List (List Nat) → List Nat → List (List Nat)
  | [], _ => []
  | a :: rest, ip => if ipEqual a ip then rest else a :: DelIP rest ip

/-- The number of bindings of `ip` in the kernel's address set. -/
def countMatching (addrs : List (List Nat)) (ip : List Nat) : Nat :=
  (addrs.filter (fun a => ipEqual a ip)).length

/-! ## Concrete inputs used to instantiate the theorems -/

/-- The packet of spec scenario S7: v2 advertisement, VRID 1, priority
200, interval 1, one address 10.0.0.1, no auth data. -/
def pktS7 : Packet :=
  { version := 2, type := 1, vrid := 1, priority := 200, countIPAddrs := 1,
    authType := 0, advInterval := 1, checksum := 0,
    ipAddresses := [[10, 0, 0, 1]], authData := [] }

/-- A v2 packet with two addresses and 8 bytes of auth data. -/
def pktAuth : Packet :=
  { version := 2, type := 1, vrid := 10, priority := 150, countIPAddrs := 2,
    authType := 0, advInterval := 1, checksum := 0,
    ipAddresses := [[192, 168, 1, 100], [192, 168, 1, 101]],
    authData := [1, 2, 3, 4, 5, 6, 7, 8] }

/-- A valid configuration requesting a 3-second advertisement interval. -/
def cfgAdv3 : Config :=
  { vrid := 10, priority := 100, interfaceName := "eth0",
    virtualIPs := [[192, 168, 1, 100]], advInterval := 3,
    preempt := true, version := 2 }

/-- A machine holding Master state with a known source IP, as in the
packet-handling unit test (VRID 10, priority 100, source 10.0.0.100). -/
def smMaster : StateMachine :=
  { NewStateMachine 10 100 [[192, 168, 1, 100]] with
      state := State.Master, sourceIP := some [10, 0, 0, 100],
      advertTimerOn := true, vipsHeld := true }

/-- An advertisement from a peer of VRID 10 with priority 200. -/
def pktPrio200 : Packet :=
  { version := 2, type := 1, vrid := 10, priority := 200, countIPAddrs := 1,
    authType := 0, advInterval := 1, checksum := 0,
    ipAddresses := [[192, 168, 1, 100]], authData := [] }

/-! ## Carry-fold lemmas -/

/-- With fuel at least the start value, the carry fold terminates at a
value below `2 ^ 16` that is congruent to the input modulo `0xFFFF`
(the end-around-carry invariant, phrased with an explicit multiple). -/
theorem foldCarryAux_spec : ∀ fuel s : Nat, s ≤ fuel →
    ∃ k, s = foldCarryAux fuel s + 65535 * k ∧ foldCarryAux fuel s ≤ 65535 := by
  intro fuel
  induction fuel with
  | zero =>
      intro s hs
      have hs0 : s = 0 := by omega
      subst hs0
      exact ⟨0, rfl, by decide⟩
  | succ f ih =>
      intro s hs
      by_cases h : 65536 ≤ s
      · have hs' : s % 65536 + s / 65536 ≤ f := by omega
        obtain ⟨k, hk, hle⟩ := ih _ hs'
        rw [foldCarryAux, if_pos h]
        exact ⟨k + s / 65536, by omega, hle⟩
      · rw [foldCarryAux, if_neg h]
        exact ⟨0, by omega, by omega⟩

/-- The carry fold returns 0 only on input 0. -/
theorem foldCarryAux_eq_zero : ∀ fuel s : Nat, s ≤ fuel →
    foldCarryAux fuel s = 0 → s = 0 := by
  intro fuel
  induction fuel with
  | zero => intro s hs _; omega
  | succ f ih =>
      intro s hs h
      by_cases hc : 65536 ≤ s
      · rw [foldCarryAux, if_pos hc] at h
        have := ih _ (by omega) h
        omega
      · rw [foldCarryAux, if_neg hc] at h
        exact h

/-- Adding the complement of a sum's carry fold to the sum makes the carry
fold come out as `0xFFFF`: the verification identity behind the checksum. -/
theorem foldCarry_compensated (s : Nat) :
    foldCarry (s + (65535 - foldCarry s)) = 65535 := by
  obtain ⟨k, hk, hle⟩ := foldCarryAux_spec s s le_rfl
  have hfeq : foldCarry s = foldCarryAux s s := rfl
  set t := s + (65535 - foldCarry s) with ht
  obtain ⟨k2, hk2, hle2⟩ := foldCarryAux_spec t t le_rfl
  have hgeq : foldCarry t = foldCarryAux t t := rfl
  have htpos : t = 65535 * (k + 1) := by omega
  have hgne : foldCarryAux t t ≠ 0 := by
    intro h0
    have := foldCarryAux_eq_zero t t le_rfl h0
    omega
  have hdvd : (65535 : Nat) ∣ foldCarryAux t t := by
    have h1 : (65535 : Nat) ∣ t := ⟨k + 1, htpos⟩
    have h3 : foldCarryAux t t = t - 65535 * k2 := by omega
    rw [h3]
    exact Nat.dvd_sub' h1 ⟨k2, rfl⟩
  obtain ⟨m, hm⟩ := hdvd
  rw [hgeq]
  omega

/-! ## Word-sum lemmas -/

/-- The `uint32` accumulation loop computes the unbounded word sum modulo
`2 ^ 32`, provided the accumulator starts within range. -/
theorem wordSumAux_eq : ∀ (l : List Nat) (s : Nat), s < 4294967296 →
    wordSumAux l s = (s + wordSumNat l) % 4294967296
  | [], s, hs => by
      show s = (s + 0) % 4294967296
      omega
  | [b], s, hs => by
      show (s + (b <<< 8)) % 4294967296 = (s + (b <<< 8)) % 4294967296
      rfl
  | b0 :: b1 :: rest, s, hs => by
      show wordSumAux rest ((s + ((b0 <<< 8) + b1)) % 4294967296) =
        (s + (((b0 <<< 8) + b1) + wordSumNat rest)) % 4294967296
      rw [wordSumAux_eq rest _ (Nat.mod_lt _ (by norm_num))]
      omega

/-- For byte-valued entries, the word sum of a buffer is bounded by
`0xFFFF` per byte, which keeps realistic buffers far below `2 ^ 32`. -/
theorem wordSumNat_le : ∀ l : List Nat, (∀ b ∈ l, b < 256) →
    wordSumNat l ≤ 65535 * l.length
  | [], _ => by simp [wordSumNat]
  | [b], h => by
      have hb := h b (by simp)
      have : b <<< 8 = b * 256 := by rw [Nat.shiftLeft_eq]
      show b <<< 8 ≤ 65535 * [b].length
      simp [this]
      omega
  | b0 :: b1 :: rest, h => by
      have h0 := h b0 (by simp)
      have h1 := h b1 (by simp)
      have ih := wordSumNat_le rest (fun b hb => h b (by simp [hb]))
      have e0 : b0 <<< 8 = b0 * 256 := by rw [Nat.shiftLeft_eq]
      show ((b0 <<< 8) + b1) + wordSumNat rest ≤ 65535 * (b0 :: b1 :: rest).length
      simp only [List.length_cons]
      rw [e0]
      have : 65535 * (rest.length + 1 + 1) = 65535 * rest.length + 131070 := by ring
      omega

/-- Unfolding lemma: the word sum consumes one big-endian pair at a time. -/
theorem wordSumNat_cons2 (a b : Nat) (l : List Nat) :
    wordSumNat (a :: b :: l) = ((a <<< 8) + b) + wordSumNat l := rfl

/-- Writing the checksum at bytes 6-7 of an 8-byte-headed buffer. -/
theorem set67_write (a b c d e f x y : Nat) (T : List Nat) :
    (((a :: b :: c :: d :: e :: f :: 0 :: 0 :: T).set 6 x).set 7 y) =
      a :: b :: c :: d :: e :: f :: x :: y :: T := rfl

/-- For any buffer of the marshalled shape (two zero checksum bytes at
offsets 6-7) whose word sum does not overflow the `uint32` accumulator,
writing `calculateChecksum` big-endian into bytes 6-7 makes the
one's-complement 16-bit sum of the result `0xFFFF`. -/
theorem checksum_buffer_ok (a1 a2 a3 a4 a5 a6 : Nat) (T : List Nat)
    (hlt : wordSumNat (a1 :: a2 :: a3 :: a4 :: a5 :: a6 :: 0 :: 0 :: T) < 4294967296) :
    onesComplementSum16
      (((a1 :: a2 :: a3 :: a4 :: a5 :: a6 :: 0 :: 0 :: T).set 6
          (calculateChecksum (a1 :: a2 :: a3 :: a4 :: a5 :: a6 :: 0 :: 0 :: T) / 256)).set 7
        (calculateChecksum (a1 :: a2 :: a3 :: a4 :: a5 :: a6 :: 0 :: 0 :: T) % 256)) =
      65535 := by
  have hzero : ((a1 :: a2 :: a3 :: a4 :: a5 :: a6 :: 0 :: 0 :: T).set 6 0).set 7 0 =
      a1 :: a2 :: a3 :: a4 :: a5 :: a6 :: 0 :: 0 :: T := rfl
  have hsum : wordSumAux (a1 :: a2 :: a3 :: a4 :: a5 :: a6 :: 0 :: 0 :: T) 0 =
      wordSumNat (a1 :: a2 :: a3 :: a4 :: a5 :: a6 :: 0 :: 0 :: T) := by
    rw [wordSumAux_eq _ 0 (by norm_num)]
    omega
  obtain ⟨k, hk, hle⟩ :=
    foldCarryAux_spec (wordSumNat (a1 :: a2 :: a3 :: a4 :: a5 :: a6 :: 0 :: 0 :: T))
      (wordSumNat (a1 :: a2 :: a3 :: a4 :: a5 :: a6 :: 0 :: 0 :: T)) le_rfl
  have hcval : calculateChecksum (a1 :: a2 :: a3 :: a4 :: a5 :: a6 :: 0 :: 0 :: T) =
      65535 - foldCarry (wordSumNat (a1 :: a2 :: a3 :: a4 :: a5 :: a6 :: 0 :: 0 :: T)) := by
    simp only [calculateChecksum, hzero, hsum]
    have hfeq : foldCarry (wordSumNat (a1 :: a2 :: a3 :: a4 :: a5 :: a6 :: 0 :: 0 :: T)) =
        foldCarryAux (wordSumNat (a1 :: a2 :: a3 :: a4 :: a5 :: a6 :: 0 :: 0 :: T))
          (wordSumNat (a1 :: a2 :: a3 :: a4 :: a5 :: a6 :: 0 :: 0 :: T)) := rfl
    rw [hfeq]
    omega
  rw [set67_write, onesComplementSum16]
  have hdecomp : wordSumNat (a1 :: a2 :: a3 :: a4 :: a5 :: a6 ::
      (calculateChecksum (a1 :: a2 :: a3 :: a4 :: a5 :: a6 :: 0 :: 0 :: T) / 256) ::
      (calculateChecksum (a1 :: a2 :: a3 :: a4 :: a5 :: a6 :: 0 :: 0 :: T) % 256) :: T) =
      wordSumNat (a1 :: a2 :: a3 :: a4 :: a5 :: a6 :: 0 :: 0 :: T) +
        calculateChecksum (a1 :: a2 :: a3 :: a4 :: a5 :: a6 :: 0 :: 0 :: T) := by
    simp only [wordSumNat_cons2, Nat.shiftLeft_eq]
    omega
  rw [hdecomp, hcval]
  have hge : foldCarry (wordSumNat (a1 :: a2 :: a3 :: a4 :: a5 :: a6 :: 0 :: 0 :: T)) ≤
      wordSumNat (a1 :: a2 :: a3 :: a4 :: a5 :: a6 :: 0 :: 0 :: T) := by
    have hfeq : foldCarry (wordSumNat (a1 :: a2 :: a3 :: a4 :: a5 :: a6 :: 0 :: 0 :: T)) =
        foldCarryAux (wordSumNat (a1 :: a2 :: a3 :: a4 :: a5 :: a6 :: 0 :: 0 :: T))
          (wordSumNat (a1 :: a2 :: a3 :: a4 :: a5 :: a6 :: 0 :: 0 :: T)) := rfl
    omega
  exact foldCarry_compensated _

/-! ## Marshalled-buffer structure lemmas -/

/-- `encodeIPBytes` is the identity on 4-byte addresses. -/
theorem encodeIPBytes_len4 (ip : List Nat) (h : ip.length = 4) :
    encodeIPBytes ip = ip := by
  simp [encodeIPBytes, ipTo4, h]

theorem addrBytes_cons (ip : List Nat) (ips : List (List Nat)) :
    addrBytes (ip :: ips) = encodeIPBytes ip ++ addrBytes ips := by
  simp [addrBytes]

theorem addrBytes_length : ∀ ips : List (List Nat),
    (∀ ip ∈ ips, ip.length = 4) → (addrBytes ips).length = 4 * ips.length
  | [], _ => rfl
  | ip :: rest, h => by
      have hip : ip.length = 4 := h ip (by simp)
      have ih := addrBytes_length rest (fun x hx => h x (by simp [hx]))
      rw [addrBytes_cons, List.length_append, encodeIPBytes_len4 ip hip, ih, hip,
        List.length_cons]
      omega

theorem addrBytes_bytes_lt (ips : List (List Nat))
    (h : ∀ ip ∈ ips, ip.length = 4 ∧ ∀ b ∈ ip, b < 256) :
    ∀ b ∈ addrBytes ips, b < 256 := by
  intro b hb
  rw [addrBytes, List.mem_flatten] at hb
  obtain ⟨l, hl, hbl⟩ := hb
  rw [List.mem_map] at hl
  obtain ⟨ip, hip, rfl⟩ := hl
  obtain ⟨hlen, hbytes⟩ := h ip hip
  rw [encodeIPBytes_len4 ip hlen] at hbl
  exact hbytes b hbl

/-- For a v2 packet, the zero-checksum buffer in its explicit layout. -/
theorem marshalZero_v2 (p : Packet) (hv : p.version = 2) :
    p.marshalZero =
      (((p.version <<< 4) % 256) ||| (p.type &&& 15)) ::
      p.vrid :: p.priority :: p.countIPAddrs :: p.authType :: p.advInterval ::
      0 :: 0 ::
      (addrBytes p.ipAddresses ++
        (if p.authData.length = 8 then p.authData else List.replicate 8 0)) := by
  simp [Packet.marshalZero, hv]

/-- Every byte written by a valid v2 packet's `Marshal` body is a byte. -/
theorem marshalZero_bytes_lt (p : Packet) (h : p.ValidV2) :
    ∀ b ∈ p.marshalZero, b < 256 := by
  obtain ⟨hv, ht, hvr, hpr, hc, hat, hai, hcnt, hips, hauth⟩ := h
  rw [marshalZero_v2 p hv]
  intro b hb
  simp only [List.mem_cons, List.mem_append] at hb
  rcases hb with h1 | h1 | h1 | h1 | h1 | h1 | h1 | h1 | h1 | h1
  · subst h1
    show _ ||| _ < 2 ^ 8
    exact Nat.or_lt_two_pow (Nat.mod_lt _ (by norm_num))
      (lt_of_le_of_lt Nat.and_le_right (by norm_num))
  · subst h1; exact hvr
  · subst h1; exact hpr
  · subst h1; exact hc
  · subst h1; exact hat
  · subst h1; exact hai
  · subst h1; norm_num
  · subst h1; norm_num
  · exact addrBytes_bytes_lt _ hips b h1
  · by_cases h8 : p.authData.length = 8
    · rw [if_pos h8] at h1
      exact hauth b h1
    · rw [if_neg h8] at h1
      rw [List.eq_of_mem_replicate h1]
      norm_num

/-- The total v2 wire length: 8 header bytes, 4 per address, 8 auth bytes. -/
theorem marshalZero_length_v2 (p : Packet) (hv : p.version = 2)
    (hips : ∀ ip ∈ p.ipAddresses, ip.length = 4) :
    p.marshalZero.length = 16 + 4 * p.ipAddresses.length := by
  rw [marshalZero_v2 p hv]
  simp only [List.length_cons, List.length_append, addrBytes_length _ hips]
  by_cases h8 : p.authData.length = 8
  · rw [if_pos h8, h8]; omega
  · rw [if_neg h8, List.length_replicate]; omega

/-! ## Decoder lemmas -/

/-- Reading back the first nibble pair written for a v2 packet: the high
nibble decodes to 2 and the low nibble to the 4-bit type. -/
theorem nibble_roundtrip (t : Nat) (ht : t < 16) :
    ((32 ||| (t &&& 15)) >>> 4) &&& 15 = 2 ∧ (32 ||| (t &&& 15)) &&& 15 = t := by
  interval_cases t <;> exact ⟨by decide, by decide⟩

/-- The v2 address-reading loop over a buffer laid out as a prefix `A`,
the encoded 4-byte addresses, and a remainder `B` returns exactly the
addresses and the offset one past them. -/
theorem readAddrs_exact : ∀ (ips : List (List Nat)) (A B : List Nat),
    (∀ ip ∈ ips, ip.length = 4) →
    readAddrs 2 (A ++ (addrBytes ips ++ B)) A.length ips.length =
      some (ips, A.length + 4 * ips.length)
  | [], A, B, _ => by simp [readAddrs]
  | ip :: rest, A, B, h => by
      have hip : ip.length = 4 := h ip (by simp)
      have hdata : A ++ (addrBytes (ip :: rest) ++ B) =
          A ++ (ip ++ (addrBytes rest ++ B)) := by
        rw [addrBytes_cons, encodeIPBytes_len4 ip hip, List.append_assoc]
      have hdata2 : A ++ (ip ++ (addrBytes rest ++ B)) =
          (A ++ ip) ++ (addrBytes rest ++ B) := by
        rw [List.append_assoc]
      have hlenAip : (A ++ ip).length = A.length + 4 := by
        rw [List.length_append, hip]
      have ih := readAddrs_exact rest (A ++ ip) B (fun x hx => h x (by simp [hx]))
      rw [hlenAip] at ih
      simp only [List.length_cons]
      rw [readAddrs]
      rw [if_pos (Or.inl rfl)]
      have hbound : A.length + 4 ≤ (A ++ (addrBytes (ip :: rest) ++ B)).length := by
        rw [hdata, hdata2, List.length_append, hlenAip]
        omega
      rw [if_pos hbound]
      have hdrop : ((A ++ (addrBytes (ip :: rest) ++ B)).drop A.length).take 4 = ip := by
        rw [hdata, List.drop_left, ← hip, List.take_left]
      have hrec : readAddrs 2 (A ++ (addrBytes (ip :: rest) ++ B)) (A.length + 4)
          rest.length = some (rest, A.length + 4 + 4 * rest.length) := by
        rw [hdata, hdata2]
        exact ih
      rw [hrec, hdrop]
      have : A.length + 4 + 4 * rest.length = A.length + 4 * (rest.length + 1) := by omega
      rw [this]

/-- Full evaluation of `Unmarshal` on a v2 wire image in explicit layout:
every header field comes back, the address list is recovered, and the
8 trailing bytes are captured as auth data. -/
theorem unmarshal_explicit (t vr pr at5 adv hi lo : Nat) (ips : List (List Nat))
    (authR : List Nat) (ht : t < 16)
    (hips : ∀ ip ∈ ips, ip.length = 4) (hauth : authR.length = 8) :
    Packet.Unmarshal ((32 ||| (t &&& 15)) :: vr :: pr :: ips.length :: at5 :: adv ::
        hi :: lo :: (addrBytes ips ++ authR)) =
      some { version := 2, type := t, vrid := vr, priority := pr,
             countIPAddrs := ips.length, authType := at5, advInterval := adv,
             checksum := (hi <<< 8) ||| lo, ipAddresses := ips, authData := authR } := by
  obtain ⟨hv2, ht2⟩ := nibble_roundtrip t ht
  have hABlen : (addrBytes ips).length = 4 * ips.length := addrBytes_length ips hips
  have hlen : ((32 ||| (t &&& 15)) :: vr :: pr :: ips.length :: at5 :: adv ::
      hi :: lo :: (addrBytes ips ++ authR)).length =
      16 + 4 * ips.length := by
    simp only [List.length_cons, List.length_append, hABlen, hauth]
    omega
  have h0 : byteAt ((32 ||| (t &&& 15)) :: vr :: pr :: ips.length :: at5 :: adv ::
      hi :: lo :: (addrBytes ips ++ authR)) 0 = 32 ||| (t &&& 15) := rfl
  have h1 : byteAt ((32 ||| (t &&& 15)) :: vr :: pr :: ips.length :: at5 :: adv ::
      hi :: lo :: (addrBytes ips ++ authR)) 1 = vr := rfl
  have h2 : byteAt ((32 ||| (t &&& 15)) :: vr :: pr :: ips.length :: at5 :: adv ::
      hi :: lo :: (addrBytes ips ++ authR)) 2 = pr := rfl
  have h3 : byteAt ((32 ||| (t &&& 15)) :: vr :: pr :: ips.length :: at5 :: adv ::
      hi :: lo :: (addrBytes ips ++ authR)) 3 = ips.length := rfl
  have h4 : byteAt ((32 ||| (t &&& 15)) :: vr :: pr :: ips.length :: at5 :: adv ::
      hi :: lo :: (addrBytes ips ++ authR)) 4 = at5 := rfl
  have h5 : byteAt ((32 ||| (t &&& 15)) :: vr :: pr :: ips.length :: at5 :: adv ::
      hi :: lo :: (addrBytes ips ++ authR)) 5 = adv := rfl
  have h6 : byteAt ((32 ||| (t &&& 15)) :: vr :: pr :: ips.length :: at5 :: adv ::
      hi :: lo :: (addrBytes ips ++ authR)) 6 = hi := rfl
  have h7 : byteAt ((32 ||| (t &&& 15)) :: vr :: pr :: ips.length :: at5 :: adv ::
      hi :: lo :: (addrBytes ips ++ authR)) 7 = lo := rfl
  have hread : readAddrs 2 ((32 ||| (t &&& 15)) :: vr :: pr :: ips.length :: at5 :: adv ::
      hi :: lo :: (addrBytes ips ++ authR)) 8 ips.length =
      some (ips, 8 + 4 * ips.length) := by
    have := readAddrs_exact ips
      [32 ||| (t &&& 15), vr, pr, ips.length, at5, adv, hi, lo] authR hips
    simpa using this
  have hdrop : (((32 ||| (t &&& 15)) :: vr :: pr :: ips.length :: at5 :: adv ::
      hi :: lo :: (addrBytes ips ++ authR)).drop (8 + 4 * ips.length)).take 8 = authR := by
    have hassoc : (32 ||| (t &&& 15)) :: vr :: pr :: ips.length :: at5 :: adv ::
        hi :: lo :: (addrBytes ips ++ authR) =
        ([32 ||| (t &&& 15), vr, pr, ips.length, at5, adv, hi, lo] ++ addrBytes ips)
          ++ authR := by
      simp
    have hplen : ([32 ||| (t &&& 15), vr, pr, ips.length, at5, adv, hi, lo] ++
        addrBytes ips).length = 8 + 4 * ips.length := by
      simp [hABlen]
      omega
    rw [hassoc, ← hplen, List.drop_left, ← hauth, List.take_length]
  simp only [Packet.Unmarshal, h0, h1, h2, h3, h4, h5, h6, h7, hv2, ht2, hread, hlen]
  have hcond : ¬ (16 + 4 * ips.length < 8) := by omega
  rw [if_neg hcond]
  have hle : 8 + 4 * ips.length + 8 ≤ 16 + 4 * ips.length := by omega
  simp [hdrop, hle]

/-! ## Claim theorems: packet codec -/

/-- Claim C1: for every valid VRRPv2 packet (IPv4 addresses, count equal
to the number of addresses), unmarshalling the marshalled buffer gives
back the version, type, vrid, priority, count, adv_interval, the address
list, and — when 8 bytes of auth data were provided — the auth data. -/
theorem marshal_unmarshal_roundtrip (p : Packet) (h : p.ValidV2) :
    ∃ buf q, p.Marshal = some buf ∧ Packet.Unmarshal buf = some q ∧
      q.version = p.version ∧ q.type = p.type ∧ q.vrid = p.vrid ∧
      q.priority = p.priority ∧ q.countIPAddrs = p.countIPAddrs ∧
      q.advInterval = p.advInterval ∧ q.ipAddresses = p.ipAddresses ∧
      (p.authData.length = 8 → q.authData = p.authData) := by
  obtain ⟨hv, ht, hvr, hpr, hc, hat, hai, hcnt, hips, hauth⟩ := h
  have hips4 : ∀ ip ∈ p.ipAddresses, ip.length = 4 := fun ip hip => (hips ip hip).1
  have hmar : p.Marshal = some
      (((p.marshalZero).set 6 (calculateChecksum p.marshalZero / 256)).set 7
        (calculateChecksum p.marshalZero % 256)) := by
    rw [Packet.Marshal, if_pos (Or.inl hv)]
  have hAR : (if p.authData.length = 8 then p.authData else List.replicate 8 0).length
      = 8 := by
    by_cases h8 : p.authData.length = 8
    · rw [if_pos h8]; exact h8
    · rw [if_neg h8]; exact List.length_replicate 8 0
  have hB0 : ((p.version <<< 4) % 256) ||| (p.type &&& 15) = 32 ||| (p.type &&& 15) := by
    rw [hv]
    rfl
  have hbufeq : ((p.marshalZero).set 6 (calculateChecksum p.marshalZero / 256)).set 7
      (calculateChecksum p.marshalZero % 256) =
      (32 ||| (p.type &&& 15)) :: p.vrid :: p.priority :: p.ipAddresses.length ::
      p.authType :: p.advInterval :: (calculateChecksum p.marshalZero / 256) ::
      (calculateChecksum p.marshalZero % 256) ::
      (addrBytes p.ipAddresses ++
        (if p.authData.length = 8 then p.authData else List.replicate 8 0)) := by
    generalize calculateChecksum p.marshalZero = c0
    conv_lhs => rw [marshalZero_v2 p hv]
    rw [set67_write, hB0, hcnt]
  have hdec := unmarshal_explicit p.type p.vrid p.priority p.authType p.advInterval
      (calculateChecksum p.marshalZero / 256) (calculateChecksum p.marshalZero % 256)
      p.ipAddresses
      (if p.authData.length = 8 then p.authData else List.replicate 8 0)
      ht hips4 hAR
  refine ⟨_,
    { version := 2, type := p.type, vrid := p.vrid, priority := p.priority,
      countIPAddrs := p.ipAddresses.length, authType := p.authType,
      advInterval := p.advInterval,
      checksum := ((calculateChecksum p.marshalZero / 256) <<< 8) |||
        (calculateChecksum p.marshalZero % 256),
      ipAddresses := p.ipAddresses,
      authData := (if p.authData.length = 8 then p.authData else List.replicate 8 0) },
    hmar, ?_, ?_, rfl, rfl, rfl, ?_, rfl, rfl, ?_⟩
  · rw [hbufeq]
    exact hdec
  · exact hv.symm
  · exact hcnt.symm
  · intro h8
    rw [if_pos h8]

/-- Witness for C1 at a packet carrying 8 bytes of auth data. -/
theorem marshal_unmarshal_roundtrip_witness :
    pktAuth.ValidV2 ∧
    (∃ buf q, pktAuth.Marshal = some buf ∧ Packet.Unmarshal buf = some q ∧
      q.version = pktAuth.version ∧ q.type = pktAuth.type ∧ q.vrid = pktAuth.vrid ∧
      q.priority = pktAuth.priority ∧ q.countIPAddrs = pktAuth.countIPAddrs ∧
      q.advInterval = pktAuth.advInterval ∧ q.ipAddresses = pktAuth.ipAddresses ∧
      (pktAuth.authData.length = 8 → q.authData = pktAuth.authData)) :=
  ⟨by decide, marshal_unmarshal_roundtrip pktAuth (by decide)⟩

/-- Claim C2: for every buffer produced by `Marshal` from a valid v2
packet, the one's-complement 16-bit sum over the whole buffer, checksum
bytes included, is `0xFFFF`. -/
theorem marshal_checksum_ffff (p : Packet) (h : p.ValidV2) :
    ∃ buf, p.Marshal = some buf ∧ onesComplementSum16 buf = 65535 := by
  obtain ⟨hv, ht, hvr, hpr, hc, hat, hai, hcnt, hips, hauth⟩ := h
  have hips4 : ∀ ip ∈ p.ipAddresses, ip.length = 4 := fun ip hip => (hips ip hip).1
  have hbytes : ∀ b ∈ p.marshalZero, b < 256 :=
    marshalZero_bytes_lt p ⟨hv, ht, hvr, hpr, hc, hat, hai, hcnt, hips, hauth⟩
  have hlen := marshalZero_length_v2 p hv hips4
  have hWle := wordSumNat_le p.marshalZero hbytes
  have hWlt : wordSumNat p.marshalZero < 4294967296 := by
    rw [hlen] at hWle
    omega
  have hmar : p.Marshal = some
      (((p.marshalZero).set 6 (calculateChecksum p.marshalZero / 256)).set 7
        (calculateChecksum p.marshalZero % 256)) := by
    rw [Packet.Marshal, if_pos (Or.inl hv)]
  refine ⟨_, hmar, ?_⟩
  have hshape := marshalZero_v2 p hv
  rw [hshape]
  refine checksum_buffer_ok _ _ _ _ _ _ _ ?_
  rw [← hshape]
  exact hWlt

/-- Witness for C2 at the S7 packet. -/
theorem marshal_checksum_ffff_witness :
    pktS7.ValidV2 ∧
    (∃ buf, pktS7.Marshal = some buf ∧ onesComplementSum16 buf = 65535) :=
  ⟨by decide, marshal_checksum_ffff pktS7 (by decide)⟩

/-- Counterexample to claim C7 as stated: the S7 packet provides no auth
data, yet its marshalled buffer is 20 bytes long, not 8 + 4·1 = 12 — the
v2 encoder always reserves the 8-byte auth region. -/
theorem marshal_length_claim_cex :
    ∃ buf, pktS7.Marshal = some buf ∧ pktS7.authData = [] ∧ buf.length = 20 ∧
      ¬ buf.length = 8 + 4 * pktS7.ipAddresses.length :=
  ⟨[33, 1, 200, 1, 0, 1, 12, 251, 10, 0, 0, 1, 0, 0, 0, 0, 0, 0, 0, 0],
    by decide, by decide, by decide, by decide⟩

/-- Claim C7 (amended): for every v2 packet with N IPv4 addresses,
`Marshal` returns a buffer of length 8 + 4·N + 8 whether or not auth data
is provided: the 8-byte auth region is always appended. -/
theorem marshal_length_v2 (p : Packet) (hv : p.version = 2)
    (hips : ∀ ip ∈ p.ipAddresses, ip.length = 4) :
    ∃ buf, p.Marshal = some buf ∧
      buf.length = 8 + 4 * p.ipAddresses.length + 8 := by
  have hmar : p.Marshal = some
      (((p.marshalZero).set 6 (calculateChecksum p.marshalZero / 256)).set 7
        (calculateChecksum p.marshalZero % 256)) := by
    rw [Packet.Marshal, if_pos (Or.inl hv)]
  refine ⟨_, hmar, ?_⟩
  simp only [List.length_set]
  rw [marshalZero_length_v2 p hv hips]
  omega

/-- Witness for the amended C7 at the S7 packet (no auth data, one
address, 20 bytes). -/
theorem marshal_length_v2_witness :
    pktS7.version = 2 ∧ (∀ ip ∈ pktS7.ipAddresses, ip.length = 4) ∧
    (∃ buf, pktS7.Marshal = some buf ∧
      buf.length = 8 + 4 * pktS7.ipAddresses.length + 8) :=
  ⟨by decide, by decide, marshal_length_v2 pktS7 (by decide) (by decide)⟩

/-! ## Claim theorems: state machine -/

/-- Claim C4: on Startup from Init, priority 255 goes straight to Master
(acquire VIPs, send an advertisement, arm the advert timer) with no timer
in between, and priority below 255 goes to Backup and arms the
master-down timer. -/
theorem startup_election (sm : StateMachine) (hst : sm.state = State.Init) :
    (sm.priority = 255 →
      ((handleEvent sm Event.Startup).state = State.Master ∧
       (handleEvent sm Event.Startup).vipsHeld = true ∧
       (handleEvent sm Event.Startup).sentAdverts = sm.sentAdverts + 1 ∧
       (handleEvent sm Event.Startup).advertTimerOn = true ∧
       (handleEvent sm Event.Startup).masterDownTimerOn = sm.masterDownTimerOn)) ∧
    (sm.priority < 255 →
      ((handleEvent sm Event.Startup).state = State.Backup ∧
       (handleEvent sm Event.Startup).masterDownTimerOn = true ∧
       (handleEvent sm Event.Startup).sentAdverts = sm.sentAdverts ∧
       (handleEvent sm Event.Startup).vipsHeld = sm.vipsHeld ∧
       (handleEvent sm Event.Startup).advertTimerOn = sm.advertTimerOn)) := by
  obtain ⟨st, vrid, prio, advI, mdi, vips, srcIP, mdt, adt, vh, sa, ee, oe⟩ := sm
  simp only at hst
  subst hst
  constructor
  · intro h255
    simp only at h255
    subst h255
    simp [handleEvent, transition, sendAdvertisement]
  · intro hlt
    simp only at hlt
    have hne : ¬ (prio = 255) := by omega
    simp [handleEvent, transition, sendAdvertisement, hne]

/-- Witness for C4 at an address-owner machine (priority 255) starting
from Init. -/
theorem startup_election_witness :
    (NewStateMachine 10 255 [[192, 168, 1, 100]]).state = State.Init ∧
    ((NewStateMachine 10 255 [[192, 168, 1, 100]]).priority = 255 →
      ((handleEvent (NewStateMachine 10 255 [[192, 168, 1, 100]])
          Event.Startup).state = State.Master ∧
       (handleEvent (NewStateMachine 10 255 [[192, 168, 1, 100]])
          Event.Startup).vipsHeld = true ∧
       (handleEvent (NewStateMachine 10 255 [[192, 168, 1, 100]])
          Event.Startup).sentAdverts =
         (NewStateMachine 10 255 [[192, 168, 1, 100]]).sentAdverts + 1 ∧
       (handleEvent (NewStateMachine 10 255 [[192, 168, 1, 100]])
          Event.Startup).advertTimerOn = true ∧
       (handleEvent (NewStateMachine 10 255 [[192, 168, 1, 100]])
          Event.Startup).masterDownTimerOn =
         (NewStateMachine 10 255 [[192, 168, 1, 100]]).masterDownTimerOn)) ∧
    ((NewStateMachine 10 255 [[192, 168, 1, 100]]).priority < 255 →
      ((handleEvent (NewStateMachine 10 255 [[192, 168, 1, 100]])
          Event.Startup).state = State.Backup ∧
       (handleEvent (NewStateMachine 10 255 [[192, 168, 1, 100]])
          Event.Startup).masterDownTimerOn = true ∧
       (handleEvent (NewStateMachine 10 255 [[192, 168, 1, 100]])
          Event.Startup).sentAdverts =
         (NewStateMachine 10 255 [[192, 168, 1, 100]]).sentAdverts ∧
       (handleEvent (NewStateMachine 10 255 [[192, 168, 1, 100]])
          Event.Startup).vipsHeld =
         (NewStateMachine 10 255 [[192, 168, 1, 100]]).vipsHeld ∧
       (handleEvent (NewStateMachine 10 255 [[192, 168, 1, 100]])
          Event.Startup).advertTimerOn =
         (NewStateMachine 10 255 [[192, 168, 1, 100]]).advertTimerOn)) :=
  ⟨by decide, startup_election (NewStateMachine 10 255 [[192, 168, 1, 100]]) (by decide)⟩

/-- Claim C3: a Master receiving a matching-VRID advertisement (of
non-zero priority, i.e. a genuine advertisement rather than a
priority-zero handover) yields to a strictly higher priority, or to an
equal priority whose source IP wins the byte-wise tie-break — releasing
the VIPs, stopping the advert timer and starting the master-down timer —
and an unknown local source IP always loses the tie-break; on an equal
priority whose source IP loses, the packet is ignored and the machine
stays Master. -/
theorem master_advert_election (sm : StateMachine) (pkt : Packet) (src : List Nat)
    (hst : sm.state = State.Master) (hv : pkt.vrid = sm.vrid)
    (hp0 : ¬ pkt.priority = 0) :
    ((sm.priority < pkt.priority ∨
        (pkt.priority = sm.priority ∧ 0 < compareSourceIP sm src)) →
      ((handlePacket sm pkt src).state = State.Backup ∧
       (handlePacket sm pkt src).vipsHeld = false ∧
       (handlePacket sm pkt src).advertTimerOn = false ∧
       (handlePacket sm pkt src).masterDownTimerOn = true)) ∧
    (sm.sourceIP = none → compareSourceIP sm src = 1) ∧
    ((pkt.priority = sm.priority ∧ compareSourceIP sm src < 0) →
      handlePacket sm pkt src = sm) := by
  have hne : ¬ (pkt.vrid ≠ sm.vrid) := by simp [hv]
  obtain ⟨st, vrid, prio, advI, mdi, vips, srcIP, mdt, adt, vh, sa, ee, oe⟩ := sm
  simp only at hst hne ⊢
  subst hst
  refine ⟨?_, ?_, ?_⟩
  · intro hwin
    simp [handlePacket, transition, sendAdvertisement, hne, hp0, hwin]
  · intro hnone
    subst hnone
    simp [compareSourceIP]
  · intro hlose
    have hnwin : ¬ (prio < pkt.priority ∨
        (pkt.priority = prio ∧ 0 < compareSourceIP
          ⟨State.Master, vrid, prio, advI, mdi, vips, srcIP, mdt, adt, vh, sa, ee, oe⟩
          src)) := by
      push_neg
      constructor
      · omega
      · intro _
        omega
    simp [handlePacket, hne, hp0, hnwin]

/-- Witness for C3: the Master of the packet-handling unit test receives
an equal-priority advertisement from a higher source IP. -/
theorem master_advert_election_witness :
    smMaster.state = State.Master ∧
    ({ pktPrio200 with priority := 100 } : Packet).vrid = smMaster.vrid ∧
    ¬ ({ pktPrio200 with priority := 100 } : Packet).priority = 0 ∧
    (((smMaster.priority < ({ pktPrio200 with priority := 100 } : Packet).priority ∨
        (({ pktPrio200 with priority := 100 } : Packet).priority = smMaster.priority ∧
          0 < compareSourceIP smMaster [10, 0, 0, 200])) →
      ((handlePacket smMaster { pktPrio200 with priority := 100 }
          [10, 0, 0, 200]).state = State.Backup ∧
       (handlePacket smMaster { pktPrio200 with priority := 100 }
          [10, 0, 0, 200]).vipsHeld = false ∧
       (handlePacket smMaster { pktPrio200 with priority := 100 }
          [10, 0, 0, 200]).advertTimerOn = false ∧
       (handlePacket smMaster { pktPrio200 with priority := 100 }
          [10, 0, 0, 200]).masterDownTimerOn = true)) ∧
    (smMaster.sourceIP = none →
      compareSourceIP smMaster [10, 0, 0, 200] = 1) ∧
    ((({ pktPrio200 with priority := 100 } : Packet).priority = smMaster.priority ∧
        compareSourceIP smMaster [10, 0, 0, 200] < 0) →
      handlePacket smMaster { pktPrio200 with priority := 100 }
        [10, 0, 0, 200] = smMaster)) :=
  ⟨by decide, by decide, by decide,
    master_advert_election smMaster { pktPrio200 with priority := 100 }
      [10, 0, 0, 200] (by decide) (by decide) (by decide)⟩

/-- Claim C8: a packet whose VRID differs from the instance's VRID is
discarded before anything happens — the machine record (state, timers,
VIPs, emitted events, sent advertisements, observer log) is unchanged. -/
theorem handlePacket_foreign_vrid (sm : StateMachine) (pkt : Packet)
    (src : List Nat) (h : pkt.vrid ≠ sm.vrid) :
    handlePacket sm pkt src = sm := by
  rw [handlePacket, if_pos h]

/-- Witness for C8: a VRID-20 advertisement arriving at the VRID-10
Master. -/
theorem handlePacket_foreign_vrid_witness :
    ({ pktPrio200 with vrid := 20 } : Packet).vrid ≠ smMaster.vrid ∧
    handlePacket smMaster { pktPrio200 with vrid := 20 } [10, 0, 0, 50] = smMaster :=
  ⟨by decide,
    handlePacket_foreign_vrid smMaster { pktPrio200 with vrid := 20 }
      [10, 0, 0, 50] (by decide)⟩

/-- Claim C10: transitioning to the state the machine is already in is a
no-op: the whole machine record — state, both timers, the VIP set and the
observer log — is unchanged, so in particular the observer is not
invoked. -/
theorem transition_self_noop (sm : StateMachine) : transition sm sm.state = sm := by
  simp [transition]

/-! ## Claim theorems: timers and configuration -/

/-- Counterexample to claim C5 as stated: at priority 100 with the
1-second advertisement interval, the code computes 3.468 s — the interval
in milliseconds is divided by 256 before the multiplication — while the
claimed formula ((256 − priority) · interval) / 256 gives 3.609375 s. -/
theorem master_down_interval_cex :
    calculateMasterDownInterval 100 1000000000 = 3468000000 ∧
    3 * 1000000000 + ((256 - 100) * 1000000000) / 256 = 3609375000 ∧
    ¬ (calculateMasterDownInterval 100 1000000000 =
        3 * 1000000000 + ((256 - 100) * 1000000000) / 256) := by
  refine ⟨by decide, by decide, by decide⟩

/-- Claim C5 (amended): for every priority in 0..255 and an advertisement
interval of `ms` whole milliseconds, the master-down interval is
3·interval plus a skew of (256 − priority) · ⌊ms / 256⌋ milliseconds —
the division by 256 is applied to the interval in milliseconds before the
multiplication by (256 − priority). -/
theorem master_down_interval_amended (p ms : Nat) (_hp : p ≤ 255) :
    calculateMasterDownInterval p (ms * 1000000) =
      3 * (ms * 1000000) + (256 - p) * (ms / 256) * 1000000 := by
  show 3 * (ms * 1000000) +
      (256 - p) * (ms * 1000000 / 1000000 / 256) * 1000000 = _
  have hms : ms * 1000000 / 1000000 = ms := by omega
  rw [hms]

/-- Witness for the amended C5 at priority 100 and the 1000 ms default
interval: 3 s + 156·3 ms. -/
theorem master_down_interval_amended_witness :
    (100 : Nat) ≤ 255 ∧
    calculateMasterDownInterval 100 (1000 * 1000000) =
      3 * (1000 * 1000000) + (256 - 100) * (1000 / 256) * 1000000 :=
  ⟨by decide, master_down_interval_amended 100 1000 (by decide)⟩

/-- Claim C6 (code bug): `NewVirtualRouter` accepts a configuration with
`AdvInterval = 3`, but the state machine built by `Start` keeps the
hard-coded 1-second advertisement interval: the configured value is never
passed to `NewStateMachine`. -/
theorem advert_interval_ignored :
    ∃ vr, NewVirtualRouter cfgAdv3 = some vr ∧
      vr.startMachine.advertisementInterval = 1000000000 ∧
      cfgAdv3.advInterval = 3 ∧
      ¬ vr.startMachine.advertisementInterval = cfgAdv3.advInterval * 1000000000 := by
  refine ⟨{ vrid := 10, priority := 100, ips := [[192, 168, 1, 100]],
            iface := "eth0" }, by decide, by decide, by decide, by decide⟩

/-! ## Claim theorems: IP manager -/

theorem ipEqual_self (ip : List Nat) : ipEqual ip ip = true := by
  simp [ipEqual]

theorem DelIP_absent : ∀ (addrs : List (List Nat)) (ip : List Nat),
    addrs.any (fun a => ipEqual a ip) = false → DelIP addrs ip = addrs
  | [], _, _ => rfl
  | a :: rest, ip, h => by
      simp only [List.any_cons, Bool.or_eq_false_iff] at h
      rw [DelIP, if_neg (by simp [h.1]), DelIP_absent rest ip h.2]

theorem DelIP_append_last : ∀ (addrs : List (List Nat)) (ip : List Nat),
    addrs.any (fun a => ipEqual a ip) = false →
    DelIP (addrs ++ [ip]) ip = addrs
  | [], ip, _ => by simp [DelIP, ipEqual_self]
  | a :: rest, ip, h => by
      simp only [List.any_cons, Bool.or_eq_false_iff] at h
      rw [List.cons_append, DelIP, if_neg (by simp [h.1]),
        DelIP_append_last rest ip h.2]

theorem countMatching_append_self (addrs : List (List Nat)) (ip : List Nat)
    (h : addrs.any (fun a => ipEqual a ip) = false) :
    countMatching (addrs ++ [ip]) ip = 1 := by
  rw [countMatching, List.filter_append]
  have h0 : addrs.filter (fun a => ipEqual a ip) = [] := by
    rw [List.filter_eq_nil_iff]
    intro a ha
    rw [List.any_eq_false] at h
    simp [h a ha]
  rw [h0]
  simp [ipEqual_self]

/-- Claim C9: against a kernel address set that does not yet bind `ip`,
`AddIP` installs a single binding, re-adding is a no-op (no second
binding), removing an absent address is a no-op success, and a second
removal after the first succeeds unchanged. -/
theorem ip_manager_idempotent (addrs : List (List Nat)) (ip : List Nat)
    (habs : addrs.any (fun a => ipEqual a ip) = false) :
    AddIP addrs ip = addrs ++ [ip] ∧
    AddIP (AddIP addrs ip) ip = addrs ++ [ip] ∧
    countMatching (AddIP (AddIP addrs ip) ip) ip = 1 ∧
    DelIP addrs ip = addrs ∧
    DelIP (AddIP addrs ip) ip = addrs ∧
    DelIP (DelIP (AddIP addrs ip) ip) ip = addrs := by
  have hadd : AddIP addrs ip = addrs ++ [ip] := by
    rw [AddIP, if_neg (by simp [habs])]
  have hpresent : (addrs ++ [ip]).any (fun a => ipEqual a ip) = true := by
    rw [List.any_append]
    simp [ipEqual_self]
  have hadd2 : AddIP (addrs ++ [ip]) ip = addrs ++ [ip] := by
    rw [AddIP, if_pos hpresent]
  refine ⟨hadd, ?_, ?_, DelIP_absent addrs ip habs, ?_, ?_⟩
  · rw [hadd, hadd2]
  · rw [hadd, hadd2]
    exact countMatching_append_self addrs ip habs
  · rw [hadd]
    exact DelIP_append_last addrs ip habs
  · rw [hadd, DelIP_append_last addrs ip habs]
    exact DelIP_absent addrs ip habs

/-- Witness for C9: binding 10.0.0.100 on an interface currently holding
only 192.168.1.1. -/
theorem ip_manager_idempotent_witness :
    ([[192, 168, 1, 1]] : List (List Nat)).any
      (fun a => ipEqual a [10, 0, 0, 100]) = false ∧
    (AddIP [[192, 168, 1, 1]] [10, 0, 0, 100] =
        [[192, 168, 1, 1]] ++ [[10, 0, 0, 100]] ∧
      AddIP (AddIP [[192, 168, 1, 1]] [10, 0, 0, 100]) [10, 0, 0, 100] =
        [[192, 168, 1, 1]] ++ [[10, 0, 0, 100]] ∧
      countMatching (AddIP (AddIP [[192, 168, 1, 1]] [10, 0, 0, 100])
        [10, 0, 0, 100]) [10, 0, 0, 100] = 1 ∧
      DelIP [[192, 168, 1, 1]] [10, 0, 0, 100] = [[192, 168, 1, 1]] ∧
      DelIP (AddIP [[192, 168, 1, 1]] [10, 0, 0, 100]) [10, 0, 0, 100] =
        [[192, 168, 1, 1]] ∧
      DelIP (DelIP (AddIP [[192, 168, 1, 1]] [10, 0, 0, 100]) [10, 0, 0, 100])
        [10, 0, 0, 100] = [[192, 168, 1, 1]]) :=
  ⟨by decide, ip_manager_idempotent [[192, 168, 1, 1]] [10, 0, 0, 100] (by decide)⟩

end Vrrp
